import Mathlib

/-!
Shallow embedding of `helpers.c` (minigbm buffer-layout and handle-lifecycle
helpers) and proofs about it.

Machine arithmetic: the C code stores plane geometry in 32-bit fields and the
running offset in a `uint32_t`, and reference counts in pointer-sized words.
We model these with `Nat` and explicit reduction modulo `U32 = 2^32`
respectively `UPTR = 2^64`.
-/

def U32 : Nat := 2 ^ 32

def UPTR : Nat := 2 ^ 64

/-!
Format codes.  Modelled from the spec: the `DRV_FORMAT_*` enumeration is
declared in headers (`drv_priv.h`) that are not part of the source under
verification; only the distinctness of the codes matters to `helpers.c`, so
they are modelled as distinct naturals, listed in the order of the `switch`
statement of `drv_bpp_from_format`.
-/

def DRV_FORMAT_C8 : Nat := 0
def DRV_FORMAT_R8 : Nat := 1
def DRV_FORMAT_RGB332 : Nat := 2
def DRV_FORMAT_BGR233 : Nat := 3
def DRV_FORMAT_YVU420 : Nat := 4
def DRV_FORMAT_NV12 : Nat := 5
def DRV_FORMAT_RG88 : Nat := 6
def DRV_FORMAT_GR88 : Nat := 7
def DRV_FORMAT_XRGB4444 : Nat := 8
def DRV_FORMAT_XBGR4444 : Nat := 9
def DRV_FORMAT_RGBX4444 : Nat := 10
def DRV_FORMAT_BGRX4444 : Nat := 11
def DRV_FORMAT_ARGB4444 : Nat := 12
def DRV_FORMAT_ABGR4444 : Nat := 13
def DRV_FORMAT_RGBA4444 : Nat := 14
def DRV_FORMAT_BGRA4444 : Nat := 15
def DRV_FORMAT_XRGB1555 : Nat := 16
def DRV_FORMAT_XBGR1555 : Nat := 17
def DRV_FORMAT_RGBX5551 : Nat := 18
def DRV_FORMAT_BGRX5551 : Nat := 19
def DRV_FORMAT_ARGB1555 : Nat := 20
def DRV_FORMAT_ABGR1555 : Nat := 21
def DRV_FORMAT_RGBA5551 : Nat := 22
def DRV_FORMAT_BGRA5551 : Nat := 23
def DRV_FORMAT_RGB565 : Nat := 24
def DRV_FORMAT_BGR565 : Nat := 25
def DRV_FORMAT_YUYV : Nat := 26
def DRV_FORMAT_YVYU : Nat := 27
def DRV_FORMAT_UYVY : Nat := 28
def DRV_FORMAT_VYUY : Nat := 29
def DRV_FORMAT_RGB888 : Nat := 30
def DRV_FORMAT_BGR888 : Nat := 31
def DRV_FORMAT_XRGB8888 : Nat := 32
def DRV_FORMAT_XBGR8888 : Nat := 33
def DRV_FORMAT_RGBX8888 : Nat := 34
def DRV_FORMAT_BGRX8888 : Nat := 35
def DRV_FORMAT_ARGB8888 : Nat := 36
def DRV_FORMAT_ABGR8888 : Nat := 37
def DRV_FORMAT_RGBA8888 : Nat := 38
def DRV_FORMAT_BGRA8888 : Nat := 39
def DRV_FORMAT_XRGB2101010 : Nat := 40
def DRV_FORMAT_XBGR2101010 : Nat := 41
def DRV_FORMAT_RGBX1010102 : Nat := 42
def DRV_FORMAT_BGRX1010102 : Nat := 43
def DRV_FORMAT_ARGB2101010 : Nat := 44
def DRV_FORMAT_ABGR2101010 : Nat := 45
def DRV_FORMAT_RGBA1010102 : Nat := 46
def DRV_FORMAT_BGRA1010102 : Nat := 47
def DRV_FORMAT_AYUV : Nat := 48

/-- The formats of the first `case` group of `drv_bpp_from_format` (8 bpp). -/
def bpp8Formats : List Nat :=
  [DRV_FORMAT_C8, DRV_FORMAT_R8, DRV_FORMAT_RGB332, DRV_FORMAT_BGR233,
   DRV_FORMAT_YVU420]

/-- The formats of the 16-bpp `case` group of `drv_bpp_from_format`. -/
def bpp16Formats : List Nat :=
  [DRV_FORMAT_RG88, DRV_FORMAT_GR88, DRV_FORMAT_XRGB4444, DRV_FORMAT_XBGR4444,
   DRV_FORMAT_RGBX4444, DRV_FORMAT_BGRX4444, DRV_FORMAT_ARGB4444,
   DRV_FORMAT_ABGR4444, DRV_FORMAT_RGBA4444, DRV_FORMAT_BGRA4444,
   DRV_FORMAT_XRGB1555, DRV_FORMAT_XBGR1555, DRV_FORMAT_RGBX5551,
   DRV_FORMAT_BGRX5551, DRV_FORMAT_ARGB1555, DRV_FORMAT_ABGR1555,
   DRV_FORMAT_RGBA5551, DRV_FORMAT_BGRA5551, DRV_FORMAT_RGB565,
   DRV_FORMAT_BGR565, DRV_FORMAT_YUYV, DRV_FORMAT_YVYU, DRV_FORMAT_UYVY,
   DRV_FORMAT_VYUY]

/-- The formats of the 24-bpp `case` group of `drv_bpp_from_format`. -/
def bpp24Formats : List Nat := [DRV_FORMAT_RGB888, DRV_FORMAT_BGR888]

/-- The formats of the 32-bpp `case` group of `drv_bpp_from_format`. -/
def bpp32Formats : List Nat :=
  [DRV_FORMAT_XRGB8888, DRV_FORMAT_XBGR8888, DRV_FORMAT_RGBX8888,
   DRV_FORMAT_BGRX8888, DRV_FORMAT_ARGB8888, DRV_FORMAT_ABGR8888,
   DRV_FORMAT_RGBA8888, DRV_FORMAT_BGRA8888, DRV_FORMAT_XRGB2101010,
   DRV_FORMAT_XBGR2101010, DRV_FORMAT_RGBX1010102, DRV_FORMAT_BGRX1010102,
   DRV_FORMAT_ARGB2101010, DRV_FORMAT_ABGR2101010, DRV_FORMAT_RGBA1010102,
   DRV_FORMAT_BGRA1010102, DRV_FORMAT_AYUV]

/-- All format codes that appear as a `case` label in `drv_bpp_from_format`. -/
def recognizedFormats : List Nat :=
  bpp8Formats ++ [DRV_FORMAT_NV12] ++ bpp16Formats ++ bpp24Formats ++
    bpp32Formats

/-- Model of `drv_bpp_from_format` (helpers.c lines 19-103): a `switch` over the
closed format enumeration; `DRV_FORMAT_NV12` is special-cased per plane index
(plane 0 gives 8, any other plane 16); a format matching no `case` label falls
through to the diagnostic print and `return 0`, modelled as the result `0`.
The `assert(plane < drv_num_planes_from_format(format))` at the top is a
debug-build contract check compiled out under `NDEBUG`; it is not part of the
value computed and is not modelled. -/
def drv_bpp_from_format (format plane : Nat) : Nat :=
  if format ∈ bpp8Formats then 8
  else if format = DRV_FORMAT_NV12 then (if plane = 0 then 8 else 16)
  else if format ∈ bpp16Formats then 16
  else if format ∈ bpp24Formats then 24
  else if format ∈ bpp32Formats then 32
  else 0

/-- C8: for the semi-planar NV12 format, `drv_bpp_from_format` returns 8 for
plane index 0 (luma) and 16 for plane index 1 (interleaved chroma pair), as an
explicit per-plane special case in the switch. -/
theorem c8_nv12_bpp :
    drv_bpp_from_format DRV_FORMAT_NV12 0 = 8 ∧
    drv_bpp_from_format DRV_FORMAT_NV12 1 = 16 := by
  decide

/-- C9: for every format code outside the closed enumerated set of `case`
labels, `drv_bpp_from_format` falls through the switch and returns the
unknown-format sentinel `0` (after logging a diagnostic, which is
observability only); the call returns normally to the caller rather than
aborting. -/
theorem c9_unknown_format (format plane : Nat)
    (hf : format ∉ recognizedFormats) : drv_bpp_from_format format plane = 0 := by
  simp only [recognizedFormats, List.append_assoc, List.mem_append,
    List.mem_singleton, not_or] at hf
  obtain ⟨h8, hnv, h16, h24, h32⟩ := hf
  unfold drv_bpp_from_format
  rw [if_neg h8, if_neg hnv, if_neg h16, if_neg h24, if_neg h32]

/-- Witness for C9 at the concrete unknown format code 123456, plane 0. -/
theorem c9_witness :
    123456 ∉ recognizedFormats ∧ drv_bpp_from_format 123456 0 = 0 :=
  ⟨by decide, c9_unknown_format 123456 0 (by decide)⟩

/-!
Handle reference-count table.  Modelled from the spec: the backing container
`drv->buffer_table` is a `drmHash` table (libdrm, outside the source under
verification) mapping a handle value to a stored word; it is modelled as an
association list of (handle, count) entries.  `drmHashLookup` finds the entry
for a key, `drmHashDelete` removes the entry for a key (a no-op when the key
is absent), `drmHashInsert` adds an entry.  The `bo->handles[plane].u32`
argument of the three helpers is abstracted as the handle value `h`; stored
counts are pointer-sized words, reduced modulo `UPTR`.
-/

def HandleTable : Type := List (Nat × Nat)

instance : DecidableEq HandleTable := by
  unfold HandleTable
  infer_instance

/-- Model of `drmHashLookup`: the stored value for key `k`, if present. -/
def hashLookup : HandleTable → Nat → Option Nat
  | [], _ => none
  | e :: rest, k => if e.1 = k then some e.2 else hashLookup rest k

/-- Model of `drmHashDelete`: remove the entry for key `k` (no-op if absent). -/
def hashDelete : HandleTable → Nat → HandleTable
  | [], _ => []
  | e :: rest, k => if e.1 = k then hashDelete rest k else e :: hashDelete rest k

/-- Model of `drmHashInsert`: add an entry for key `k` with value `v`. -/
def hashInsert (t : HandleTable) (k v : Nat) : HandleTable := (k, v) :: t

/-- Model of `drv_get_reference_count` (helpers.c lines 233-243): look the
handle up in the table; the stored count if present, else 0. -/
def drv_get_reference_count (t : HandleTable) (h : Nat) : Nat :=
  match hashLookup t h with
  | some count => count
  | none => 0

/-- Model of `drv_increment_reference_count` (helpers.c lines 245-254): read
the current count, delete any existing entry, re-insert with count + 1 (the
store is a pointer-sized word, hence the reduction modulo `UPTR`). -/
def drv_increment_reference_count (t : HandleTable) (h : Nat) : HandleTable :=
  let num := drv_get_reference_count t h
  hashInsert (hashDelete t h) h ((num + 1) % UPTR)

/-- Model of `drv_decrement_reference_count` (helpers.c lines 256-266): read
the current count, delete any existing entry, and re-insert with count - 1
only when the count read was positive. -/
def drv_decrement_reference_count (t : HandleTable) (h : Nat) : HandleTable :=
  let num := drv_get_reference_count t h
  let t2 := hashDelete t h
  if num > 0 then hashInsert t2 h (num - 1) else t2

lemma hashLookup_delete (t : HandleTable) (k k2 : Nat) :
    hashLookup (hashDelete t k) k2 =
      if k2 = k then none else hashLookup t k2 := by
  induction t with
  | nil => cases Decidable.em (k2 = k) with
    | inl hh => simp [hashDelete, hashLookup, hh]
    | inr hh => simp [hashDelete, hashLookup, hh]
  | cons e rest ih =>
    by_cases he : e.1 = k
    · rw [hashDelete, if_pos he, ih]
      by_cases h2 : k2 = k
      · simp [h2]
      · have : ¬ e.1 = k2 := fun hc => h2 (hc ▸ he)
        simp [h2, hashLookup, this]
    · rw [hashDelete, if_neg he]
      by_cases h2 : e.1 = k2
      · have : ¬ k2 = k := fun hc => he (h2.symm ▸ hc)
        simp [hashLookup, h2, this]
      · rw [hashLookup, if_neg h2, ih, hashLookup, if_neg h2]

lemma get_delete (t : HandleTable) (k k2 : Nat) :
    drv_get_reference_count (hashDelete t k) k2 =
      if k2 = k then 0 else drv_get_reference_count t k2 := by
  unfold drv_get_reference_count
  rw [hashLookup_delete]
  by_cases h2 : k2 = k <;> simp [h2]

lemma get_insert_self (t : HandleTable) (k v : Nat) :
    drv_get_reference_count (hashInsert t k v) k = v := by
  simp [drv_get_reference_count, hashInsert, hashLookup]

/-- C4: for every table state and handle, incrementing never fails (it is a
total operation) and makes the stored count one more than the count read
before the call — in the pointer-width arithmetic the source uses for the
stored word — treating an absent entry as count 0. -/
theorem c4_increment_refcount (t : HandleTable) (h : Nat) :
    drv_get_reference_count (drv_increment_reference_count t h) h =
      (drv_get_reference_count t h + 1) % UPTR := by
  unfold drv_increment_reference_count
  exact get_insert_self _ _ _

/-- C3 counterexample: the table `[(5, 0)]` — reachable from the empty table
by one increment of handle 5 followed by one decrement — has count 0 for
handle 5, yet a further decrement of handle 5 does not leave the table
unchanged: the zero-count entry is removed (the code calls `drmHashDelete`
before testing `num > 0`). -/
theorem c3_refcount_counterexample :
    drv_decrement_reference_count (drv_increment_reference_count [] 5) 5 =
      [(5, 0)] ∧
    drv_get_reference_count [(5, 0)] 5 = 0 ∧
    drv_decrement_reference_count [(5, 0)] 5 ≠ [(5, 0)] := by
  refine ⟨by decide, by decide, ?_⟩
  intro hc
  exact absurd hc (by decide)

/-- C3 (amended): starting from an empty table `get h = 0` for every handle;
after one increment of `h`, `get h = 1`; after two consecutive decrements of
`h`, `get h = 0` after each of the two calls; and a decrement of a handle
whose count reads 0 creates no entry and never goes negative — it equals
deleting the handle's entry, so every handle's count is unchanged, and when
the handle is absent from the table the table is literally unchanged; a
present zero-count entry (observationally indistinguishable from absence) is
removed rather than kept. -/
theorem c3_refcount_amended :
    (∀ h : Nat, drv_get_reference_count [] h = 0) ∧
    (∀ h : Nat,
      drv_get_reference_count (drv_increment_reference_count [] h) h = 1) ∧
    (∀ h : Nat,
      drv_get_reference_count
        (drv_decrement_reference_count
          (drv_increment_reference_count [] h) h) h = 0 ∧
      drv_get_reference_count
        (drv_decrement_reference_count
          (drv_decrement_reference_count
            (drv_increment_reference_count [] h) h) h) h = 0) ∧
    (∀ (t : HandleTable) (h : Nat), drv_get_reference_count t h = 0 →
      drv_decrement_reference_count t h = hashDelete t h ∧
      (∀ h2 : Nat,
        drv_get_reference_count (drv_decrement_reference_count t h) h2 =
          drv_get_reference_count t h2) ∧
      (hashLookup t h = none → drv_decrement_reference_count t h = t)) := by
  have hone : (1 : Nat) % UPTR = 1 := by decide
  have hget1 : ∀ h : Nat,
      drv_get_reference_count (drv_increment_reference_count [] h) h = 1 := by
    intro h
    rw [c4_increment_refcount]
    simp [drv_get_reference_count, hashLookup, hone]
  have hdec0 : ∀ (t : HandleTable) (h : Nat),
      drv_get_reference_count t h = 0 →
      drv_decrement_reference_count t h = hashDelete t h := by
    intro t h h0
    unfold drv_decrement_reference_count
    rw [h0]
    simp
  have hdelete_id : ∀ (t : HandleTable) (h : Nat),
      hashLookup t h = none → hashDelete t h = t := by
    intro t h
    induction t with
    | nil => intro _; rfl
    | cons e rest ih =>
      intro hl
      rw [hashLookup] at hl
      by_cases he : e.1 = h
      · rw [if_pos he] at hl; exact absurd hl (by simp)
      · rw [if_neg he] at hl
        rw [hashDelete, if_neg he, ih hl]
  have hdec1 : ∀ h : Nat,
      drv_decrement_reference_count
        (drv_increment_reference_count [] h) h = [(h, 0)] := by
    intro h
    unfold drv_decrement_reference_count
    rw [hget1 h]
    simp only [Nat.lt_irrefl, gt_iff_lt, Nat.zero_lt_one, if_pos]
    unfold drv_increment_reference_count
    simp [hashInsert, hashDelete, hashLookup, drv_get_reference_count, hone]
  refine ⟨fun h => rfl, hget1, ?_, ?_⟩
  · intro h
    constructor
    · rw [hdec1 h]
      simp [drv_get_reference_count, hashLookup]
    · rw [hdec1 h]
      have h0 : drv_get_reference_count [(h, 0)] h = 0 := by
        simp [drv_get_reference_count, hashLookup]
      rw [hdec0 _ _ h0]
      simp [hashDelete, drv_get_reference_count, hashLookup]
  · intro t h h0
    refine ⟨hdec0 t h h0, ?_, ?_⟩
    · intro h2
      rw [hdec0 t h h0, get_delete]
      by_cases h2h : h2 = h
      · rw [if_pos h2h, h2h, h0]
      · rw [if_neg h2h]
    · intro hnone
      rw [hdec0 t h h0, hdelete_id t h hnone]

/-- Witness for C3 (amended): the zero-floor branch instantiated at the
concrete table `[(9, 4)]` and the absent handle 7, whose count reads 0. -/
theorem c3_witness :
    drv_decrement_reference_count [(9, 4)] 7 = hashDelete [(9, 4)] 7 ∧
    drv_decrement_reference_count [(9, 4)] 7 = [(9, 4)] := by
  have h := c3_refcount_amended.2.2.2 [(9, 4)] 7 (by decide)
  exact ⟨h.1, h.2.2 (by decide)⟩

/-!
Buffer objects and the layout engine.
-/

/-- Model of `struct bo`.  Modelled from the spec: the struct is declared in
`drv_priv.h`, which is not part of the source under verification; the spec's
BufferObject carries per-plane stride, size, offset and handle plus a plane
count and total size.  The per-plane arrays are modelled as functions from
plane index, and `bo->handles[p].u32` as the natural `handles p`. -/
structure Bo where
  num_planes : Nat
  handles : Nat → Nat
  strides : Nat → Nat
  offsets : Nat → Nat
  sizes : Nat → Nat
  total_size : Nat

/-- External FormatInfo services consumed by `drv_bo_from_format`: the spec's
`numPlanes(format)`, `strideForPlane(format, width, plane)` and
`sizeForPlane(format, stride, height, plane)` (the C functions
`drv_num_planes_from_format`, `drv_stride_from_format`,
`drv_size_from_format`, all outside this file), treated as black boxes. -/
structure FormatInfo where
  num_planes : Nat → Nat
  stride : Nat → Nat → Nat → Nat
  size : Nat → Nat → Nat → Nat → Nat

/-- Pointwise update of a plane array at one index. -/
def fnUpdate (g : Nat → Nat) (i v : Nat) : Nat → Nat :=
  fun j => if j = i then v else g j

lemma fnUpdate_self (g : Nat → Nat) (i v : Nat) : fnUpdate g i v i = v := by
  simp [fnUpdate]

lemma fnUpdate_ne (g : Nat → Nat) (i v j : Nat) (hj : j ≠ i) :
    fnUpdate g i v j = g j := by
  simp [fnUpdate, hj]

/-- One iteration of the plane loop of `drv_bo_from_format` (helpers.c lines
120-126): store the stride, the size and the current running offset for plane
`p`, then add the plane's size onto the running offset.  The stride and size
land in 32-bit fields and the running offset is a `uint32_t`, hence the
reductions modulo `U32`. -/
def boStep (fi : FormatInfo) (w hgt f : Nat) (acc : Bo × Nat) (p : Nat) :
    Bo × Nat :=
  let st := fi.stride f w p % U32
  let sz := fi.size f st hgt p % U32
  ({ acc.1 with
      strides := fnUpdate acc.1.strides p st,
      sizes := fnUpdate acc.1.sizes p sz,
      offsets := fnUpdate acc.1.offsets p acc.2 },
   (acc.2 + sz) % U32)

/-- The plane loop of `drv_bo_from_format` run over plane indices
`0, ..., n - 1`, starting from running offset 0. -/
def boLoopN (fi : FormatInfo) (w hgt f : Nat) (bo : Bo) (n : Nat) : Bo × Nat :=
  (List.range n).foldl (boStep fi w hgt f) (bo, 0)

/-- Model of `drv_bo_from_format` (helpers.c lines 110-132): run the plane
loop for `num_planes = drv_num_planes_from_format(format)` planes, then set
`total_size` from the offset and size of plane `num_planes - 1` read back from
the buffer object's own plane-count field, and return 0.  The
`assert(num_planes)` is modelled as the `none` result when the external plane
count is 0; in every other case the function returns success (0) — it has no
error path. -/
def drv_bo_from_format (fi : FormatInfo) (bo : Bo) (w hgt f : Nat) :
    Option (Bo × Int) :=
  if fi.num_planes f = 0 then none
  else
    let bo1 := (boLoopN fi w hgt f bo (fi.num_planes f)).1
    some ({ bo1 with
             total_size := (bo1.offsets (bo1.num_planes - 1) +
               bo1.sizes (bo1.num_planes - 1)) % U32 }, 0)

lemma boLoopN_succ (fi : FormatInfo) (w hgt f : Nat) (bo : Bo) (n : Nat) :
    boLoopN fi w hgt f bo (n + 1) =
      boStep fi w hgt f (boLoopN fi w hgt f bo n) n := by
  unfold boLoopN
  rw [List.range_succ, List.foldl_append]
  rfl

/-- Loop invariant of the plane loop: the plane count is untouched, plane 0's
offset is 0, each later processed plane's offset is the previous plane's
offset plus size (in `uint32_t` arithmetic), and the final running offset is
the last processed plane's offset plus size. -/
lemma boLoopN_spec (fi : FormatInfo) (w hgt f : Nat) (bo : Bo) :
    ∀ n : Nat,
      (boLoopN fi w hgt f bo n).1.num_planes = bo.num_planes ∧
      ((boLoopN fi w hgt f bo n).2 =
        if n = 0 then 0
        else ((boLoopN fi w hgt f bo n).1.offsets (n - 1) +
          (boLoopN fi w hgt f bo n).1.sizes (n - 1)) % U32) ∧
      (1 ≤ n → (boLoopN fi w hgt f bo n).1.offsets 0 = 0) ∧
      (∀ i, 0 < i → i < n →
        (boLoopN fi w hgt f bo n).1.offsets i =
          ((boLoopN fi w hgt f bo n).1.offsets (i - 1) +
            (boLoopN fi w hgt f bo n).1.sizes (i - 1)) % U32) := by
  intro n
  induction n with
  | zero =>
    refine ⟨rfl, by simp [boLoopN, List.range_zero], ?_, ?_⟩
    · intro h; exact absurd h (by omega)
    · intro i _ hi; exact absurd hi (by omega)
  | succ n ih =>
    obtain ⟨ih1, ih2, ih3, ih4⟩ := ih
    rw [boLoopN_succ]
    set L := boLoopN fi w hgt f bo n with hL
    have hoff : ∀ j, (boStep fi w hgt f L n).1.offsets j =
        fnUpdate L.1.offsets n L.2 j := fun j => rfl
    have hsz : ∀ j, (boStep fi w hgt f L n).1.sizes j =
        fnUpdate L.1.sizes n
          (fi.size f (fi.stride f w n % U32) hgt n % U32) j := fun j => rfl
    have hsnd : (boStep fi w hgt f L n).2 =
        (L.2 + fi.size f (fi.stride f w n % U32) hgt n % U32) % U32 := rfl
    have hnp : (boStep fi w hgt f L n).1.num_planes = L.1.num_planes := rfl
    refine ⟨by rw [hnp, ih1], ?_, ?_, ?_⟩
    · rw [hsnd]
      rw [if_neg (Nat.succ_ne_zero n)]
      have h1 : (boStep fi w hgt f L n).1.offsets (n + 1 - 1) = L.2 := by
        rw [hoff]; simp [fnUpdate]
      have h2 : (boStep fi w hgt f L n).1.sizes (n + 1 - 1) =
          fi.size f (fi.stride f w n % U32) hgt n % U32 := by
        rw [hsz]; simp [fnUpdate]
      rw [h1, h2]
    · intro _
      by_cases hn : n = 0
      · subst hn
        rw [hoff, fnUpdate_self]
        rw [ih2]
        simp
      · rw [hoff, fnUpdate_ne _ _ _ _ (by omega : (0 : Nat) ≠ n)]
        exact ih3 (by omega)
    · intro i hi0 hin
      by_cases hieq : i = n
      · have h1 : (boStep fi w hgt f L n).1.offsets i = L.2 := by
          rw [hoff, hieq, fnUpdate_self]
        have h2 : (boStep fi w hgt f L n).1.offsets (i - 1) =
            L.1.offsets (i - 1) := by
          rw [hoff]; exact fnUpdate_ne _ _ _ _ (by omega)
        have h3 : (boStep fi w hgt f L n).1.sizes (i - 1) =
            L.1.sizes (i - 1) := by
          rw [hsz]; exact fnUpdate_ne _ _ _ _ (by omega)
        rw [h1, h2, h3, ih2, if_neg (by omega : ¬ n = 0), hieq]
      · have hilt : i < n := by omega
        have h1 : (boStep fi w hgt f L n).1.offsets i = L.1.offsets i := by
          rw [hoff]; exact fnUpdate_ne _ _ _ _ hieq
        have h2 : (boStep fi w hgt f L n).1.offsets (i - 1) =
            L.1.offsets (i - 1) := by
          rw [hoff]; exact fnUpdate_ne _ _ _ _ (by omega)
        have h3 : (boStep fi w hgt f L n).1.sizes (i - 1) =
            L.1.sizes (i - 1) := by
          rw [hsz]; exact fnUpdate_ne _ _ _ _ (by omega)
        rw [h1, h2, h3]
        exact ih4 i hi0 hilt

/-- C1: for every FormatInfo, every buffer object whose plane count matches
the format's plane count (at least 1), and every width and height,
`drv_bo_from_format` succeeds (returns 0) and produces offsets and sizes with
`offset 0 = 0`, `offset i = offset (i-1) + size (i-1)` for every later plane
index, and `total_size = offset last + size last` for the buffer's final
plane index — all sums taken in the `uint32_t` arithmetic the source computes
them in. -/
theorem c1_compute_layout (fi : FormatInfo) (bo : Bo) (w hgt f : Nat)
    (_hn : bo.num_planes = fi.num_planes f) (h1 : 1 ≤ fi.num_planes f) :
    ∃ bo2, drv_bo_from_format fi bo w hgt f = some (bo2, 0) ∧
      bo2.offsets 0 = 0 ∧
      (∀ i, 0 < i → i < fi.num_planes f →
        bo2.offsets i = (bo2.offsets (i - 1) + bo2.sizes (i - 1)) % U32) ∧
      bo2.total_size =
        (bo2.offsets (bo.num_planes - 1) +
          bo2.sizes (bo.num_planes - 1)) % U32 := by
  have hne : ¬ fi.num_planes f = 0 := by omega
  obtain ⟨hs1, _, hs3, hs4⟩ := boLoopN_spec fi w hgt f bo (fi.num_planes f)
  have heq : drv_bo_from_format fi bo w hgt f =
      some ({ (boLoopN fi w hgt f bo (fi.num_planes f)).1 with
              total_size :=
                ((boLoopN fi w hgt f bo (fi.num_planes f)).1.offsets
                    ((boLoopN fi w hgt f bo (fi.num_planes f)).1.num_planes - 1) +
                  (boLoopN fi w hgt f bo (fi.num_planes f)).1.sizes
                    ((boLoopN fi w hgt f bo (fi.num_planes f)).1.num_planes - 1)) %
                  U32 }, 0) := by
    unfold drv_bo_from_format
    rw [if_neg hne]
  refine ⟨_, heq, hs3 h1, fun i hi0 hin => hs4 i hi0 hin, ?_⟩
  show ((boLoopN fi w hgt f bo (fi.num_planes f)).1.offsets
      ((boLoopN fi w hgt f bo (fi.num_planes f)).1.num_planes - 1) +
    (boLoopN fi w hgt f bo (fi.num_planes f)).1.sizes
      ((boLoopN fi w hgt f bo (fi.num_planes f)).1.num_planes - 1)) % U32 =
    ((boLoopN fi w hgt f bo (fi.num_planes f)).1.offsets (bo.num_planes - 1) +
      (boLoopN fi w hgt f bo (fi.num_planes f)).1.sizes
        (bo.num_planes - 1)) % U32
  rw [hs1]

/-- A concrete two-plane FormatInfo used to witness the layout theorems. -/
def fiTwoPlane : FormatInfo :=
  { num_planes := fun _ => 2,
    stride := fun _ w _ => w,
    size := fun _ st hgt _ => st * hgt }

/-- A concrete zeroed two-plane buffer object. -/
def boTwo : Bo :=
  { num_planes := 2, handles := fun _ => 0, strides := fun _ => 0,
    offsets := fun _ => 0, sizes := fun _ => 0, total_size := 0 }

/-- Witness for C1 at the concrete two-plane FormatInfo, width 4, height 4. -/
theorem c1_witness :
    boTwo.num_planes = fiTwoPlane.num_planes 0 ∧
    1 ≤ fiTwoPlane.num_planes 0 ∧
    (∃ bo2, drv_bo_from_format fiTwoPlane boTwo 4 4 0 = some (bo2, 0) ∧
      bo2.offsets 0 = 0 ∧
      (∀ i, 0 < i → i < fiTwoPlane.num_planes 0 →
        bo2.offsets i = (bo2.offsets (i - 1) + bo2.sizes (i - 1)) % U32) ∧
      bo2.total_size =
        (bo2.offsets (boTwo.num_planes - 1) +
          bo2.sizes (boTwo.num_planes - 1)) % U32) :=
  ⟨rfl, by decide, c1_compute_layout fiTwoPlane boTwo 4 4 0 rfl (by decide)⟩

/-- C7 (amended): `drv_bo_from_format` performs no format-recognition check
and has no error result at all: for every FormatInfo, buffer object, width,
height and format code whose external plane count is at least 1 — recognized
by the bpp table or not — it returns success (0).  The only guard in the
source is `assert(num_planes)`, a debug-build contract check on the external
plane count, not an `InvalidFormat` error. -/
theorem c7_layout_no_error (fi : FormatInfo) (bo : Bo) (w hgt f : Nat)
    (h1 : 1 ≤ fi.num_planes f) :
    (drv_bo_from_format fi bo w hgt f).map Prod.snd = some 0 := by
  have hne : ¬ fi.num_planes f = 0 := by omega
  unfold drv_bo_from_format
  rw [if_neg hne]
  rfl

/-- A concrete single-plane FormatInfo whose plane count is 1 for every
format code. -/
def fiOnePlane : FormatInfo :=
  { num_planes := fun _ => 1,
    stride := fun _ w _ => w,
    size := fun _ st hgt _ => st * hgt }

/-- A concrete zeroed single-plane buffer object. -/
def boOne : Bo :=
  { num_planes := 1, handles := fun _ => 0, strides := fun _ => 0,
    offsets := fun _ => 0, sizes := fun _ => 0, total_size := 0 }

/-- C7 counterexample: at the concrete format code 999999 — which is outside
the recognized enumeration (`drv_bpp_from_format` reports it unknown) —
`drv_bo_from_format` does not fail with any error: it returns 0 (success). -/
theorem c7_counterexample :
    999999 ∉ recognizedFormats ∧
    drv_bpp_from_format 999999 0 = 0 ∧
    (drv_bo_from_format fiOnePlane boOne 4 4 999999).map Prod.snd =
      some 0 := by
  refine ⟨by decide, by decide, ?_⟩
  rfl

/-- Witness for C7 (amended) at the concrete single-plane FormatInfo and the
recognized format code `DRV_FORMAT_XRGB8888`. -/
theorem c7_witness :
    1 ≤ fiOnePlane.num_planes DRV_FORMAT_XRGB8888 ∧
    (drv_bo_from_format fiOnePlane boOne 2 2 DRV_FORMAT_XRGB8888).map
      Prod.snd = some 0 :=
  ⟨by decide,
    c7_layout_no_error fiOnePlane boOne 2 2 DRV_FORMAT_XRGB8888 (by decide)⟩

/-!
Shared-handle GEM release (`drv_gem_bo_destroy`).
-/

/-- Model of the inner scan of `drv_gem_bo_destroy` (helpers.c lines
188-193): plane `p` is skipped exactly when some earlier plane `i < p`
carries an identical handle value. -/
def gemSkip (bo : Bo) (p : Nat) : Bool :=
  (List.range p).any (fun i => bo.handles i == bo.handles p)

/-- The sequence of handle values for which `drv_gem_bo_destroy` issues a
`DRM_IOCTL_GEM_CLOSE` request: the planes in order, minus the skipped ones. -/
def gemCloseCalls (bo : Bo) : List Nat :=
  ((List.range bo.num_planes).filter (fun p => !gemSkip bo p)).map bo.handles

/-- Model of `drv_gem_bo_destroy` (helpers.c lines 181-208): issue a close
request for each first-occurrence handle; a failing request (nonzero result
of the `close` exchange, abstracting `drmIoctl`) overwrites the recorded
error and the loop continues; the recorded error (0 when every close
succeeded) is returned. -/
def drv_gem_bo_destroy (close : Nat → Int) (bo : Bo) : Int :=
  (gemCloseCalls bo).foldl
    (fun err hh =>
      let ret := close hh
      if ret = 0 then err else ret) 0

lemma gemSkip_false_iff (bo : Bo) (p : Nat) :
    gemSkip bo p = false ↔ ∀ i, i < p → bo.handles i ≠ bo.handles p := by
  rw [Bool.eq_false_iff]
  simp [gemSkip, List.any_eq_true, List.mem_range]

lemma mem_gemCloseCalls (bo : Bo) (hh : Nat) :
    hh ∈ gemCloseCalls bo ↔ ∃ p, p < bo.num_planes ∧ bo.handles p = hh := by
  constructor
  · intro hmem
    simp only [gemCloseCalls, List.mem_map, List.mem_filter,
      List.mem_range] at hmem
    obtain ⟨p, ⟨hp, _⟩, hph⟩ := hmem
    exact ⟨p, hp, hph⟩
  · rintro ⟨p, hp, hph⟩
    have hex : ∃ q, bo.handles q = hh := ⟨p, hph⟩
    have hspec : bo.handles (Nat.find hex) = hh := Nat.find_spec hex
    have hp0 : Nat.find hex < bo.num_planes :=
      lt_of_le_of_lt (Nat.find_min' hex hph) hp
    have hskip : gemSkip bo (Nat.find hex) = false := by
      rw [gemSkip_false_iff]
      intro i hi
      rw [hspec]
      exact Nat.find_min hex hi
    simp only [gemCloseCalls, List.mem_map, List.mem_filter, List.mem_range]
    exact ⟨Nat.find hex, ⟨hp0, by rw [hskip]; rfl⟩, hspec⟩

lemma nodup_gemCloseCalls (bo : Bo) : (gemCloseCalls bo).Nodup := by
  have hpl : ((List.range bo.num_planes).filter
      (fun p => !gemSkip bo p)).Pairwise (· < ·) :=
    List.Pairwise.sublist (List.filter_sublist _) (List.pairwise_lt_range _)
  have hpne : ((List.range bo.num_planes).filter
      (fun p => !gemSkip bo p)).Pairwise
        (fun a b => bo.handles a ≠ bo.handles b) := by
    refine hpl.imp_of_mem ?_
    intro a b ha hb hab
    have hbf : (!gemSkip bo b) = true := (List.mem_filter.mp hb).2
    have hbe : gemSkip bo b = false := by simpa using hbf
    exact fun hc => (gemSkip_false_iff bo b).mp hbe a hab hc
  exact List.pairwise_map.mpr hpne

lemma count_gemCloseCalls (bo : Bo) (hh : Nat) :
    (gemCloseCalls bo).count hh =
      if hh ∈ (List.range bo.num_planes).map bo.handles then 1 else 0 := by
  by_cases hmem : hh ∈ (List.range bo.num_planes).map bo.handles
  · rw [if_pos hmem]
    have hin : hh ∈ gemCloseCalls bo := by
      rw [mem_gemCloseCalls]
      simp only [List.mem_map, List.mem_range] at hmem
      obtain ⟨p, hp, hph⟩ := hmem
      exact ⟨p, hp, hph⟩
    exact List.count_eq_one_of_mem (nodup_gemCloseCalls bo) hin
  · rw [if_neg hmem]
    apply List.count_eq_zero_of_not_mem
    rw [mem_gemCloseCalls]
    rintro ⟨p, hp, hph⟩
    refine hmem ?_
    simp only [List.mem_map, List.mem_range]
    exact ⟨p, hp, hph⟩

/-- A concrete three-plane buffer object with plane handles `[a, a, b]`. -/
def mkBo3 (a b : Nat) : Bo :=
  { num_planes := 3, handles := fun p => if p = 2 then b else a,
    strides := fun _ => 0, offsets := fun _ => 0, sizes := fun _ => 0,
    total_size := 0 }

lemma gemCloseCalls_mkBo3 (a b : Nat) (hab : a ≠ b) :
    gemCloseCalls (mkBo3 a b) = [a, b] := by
  have hba : (a == b) = false := beq_eq_false_iff_ne.mpr hab
  simp [gemCloseCalls, gemSkip, mkBo3, List.range_succ, List.filter, hba]

/-- C2: on a buffer object whose plane handles are `[h1, h1, h2]` with `h2`
distinct, `drv_gem_bo_destroy` issues exactly the two close requests
`[h1, h2]`, never three; in general a plane is skipped exactly when an
earlier plane of the same buffer object carries an identical handle value,
so every handle carried by some plane is closed exactly once and no other
handle is ever closed. -/
theorem c2_gem_destroy_dedup (h1 h2 : Nat) (hne : h1 ≠ h2) :
    gemCloseCalls (mkBo3 h1 h2) = [h1, h2] ∧
    (∀ (bo : Bo) (p : Nat),
      gemSkip bo p = true ↔ ∃ i, i < p ∧ bo.handles i = bo.handles p) ∧
    (∀ (bo : Bo) (hh : Nat),
      (gemCloseCalls bo).count hh =
        if hh ∈ (List.range bo.num_planes).map bo.handles then 1 else 0) :=
  ⟨gemCloseCalls_mkBo3 h1 h2 hne,
   fun bo p => by simp [gemSkip, List.any_eq_true, List.mem_range],
   count_gemCloseCalls⟩

/-- Witness for C2 at the concrete handles 10 and 20. -/
theorem c2_witness :
    (10 : Nat) ≠ 20 ∧ gemCloseCalls (mkBo3 10 20) = [10, 20] :=
  ⟨by decide, (c2_gem_destroy_dedup 10 20 (by decide)).1⟩

lemma foldl_keep_last (a : Int) (l : List Int) :
    l.foldl (fun e r => if r = 0 then e else r) a =
      ((l.filter (fun r => !(r == 0))).getLast?).getD a := by
  induction l generalizing a with
  | nil => rfl
  | cons r rest ih =>
    rw [List.foldl_cons, ih]
    by_cases hr : r = 0
    · rw [if_pos hr]
      rw [List.filter_cons,
        if_neg (by simp [hr] : ¬((!(r == 0)) = true))]
    · rw [if_neg hr]
      rw [List.filter_cons, if_pos (by simp [hr] : (!(r == 0)) = true)]
      cases hfe : rest.filter (fun r => !(r == 0)) with
      | nil => simp
      | cons x xs =>
        rw [List.getLast?_cons_cons]
        obtain ⟨y, hy⟩ := Option.isSome_iff_exists.mp
          (List.getLast?_isSome.mpr (List.cons_ne_nil x xs))
        rw [hy]
        rfl

/-- C6 (amended): when release requests fail, `drv_gem_bo_destroy` records
the error and keeps issuing close requests for all remaining distinct
handles, and it returns the LAST error encountered (each later failure
overwrites the recorded error); it returns 0 (success) when every close
succeeded. -/
theorem c6_gem_destroy_error (close : Nat → Int) (bo : Bo) :
    drv_gem_bo_destroy close bo =
      ((((gemCloseCalls bo).map close).filter
        (fun r => !(r == 0))).getLast?).getD 0 ∧
    ((∀ hh ∈ gemCloseCalls bo, close hh = 0) →
      drv_gem_bo_destroy close bo = 0) := by
  have hmain : drv_gem_bo_destroy close bo =
      ((((gemCloseCalls bo).map close).filter
        (fun r => !(r == 0))).getLast?).getD 0 := by
    unfold drv_gem_bo_destroy
    rw [← foldl_keep_last 0 ((gemCloseCalls bo).map close), List.foldl_map]
  refine ⟨hmain, ?_⟩
  intro hz
  rw [hmain]
  have hnil : ((gemCloseCalls bo).map close).filter
      (fun r => !(r == 0)) = [] := by
    rw [List.filter_eq_nil_iff]
    intro r hr
    simp only [List.mem_map] at hr
    obtain ⟨hh, hmem, hrr⟩ := hr
    rw [← hrr, hz hh hmem]
    simp
  rw [hnil]
  rfl

/-- A concrete two-plane buffer object with distinct handles 1 and 2. -/
def boGem2 : Bo :=
  { num_planes := 2, handles := fun p => if p = 0 then 1 else 2,
    strides := fun _ => 0, offsets := fun _ => 0, sizes := fun _ => 0,
    total_size := 0 }

/-- A close exchange that fails with error 3 on handle 1 and error 4 on any
other handle. -/
def closeFail : Nat → Int := fun hh => if hh = 1 then 3 else 4

/-- C6 counterexample: on a buffer object with distinct handles `[1, 2]`
whose closes fail with error 3 (first) and error 4 (second),
`drv_gem_bo_destroy` returns 4, the LAST error — not the first error 3 the
claim promises. -/
theorem c6_counterexample :
    gemCloseCalls boGem2 = [1, 2] ∧
    closeFail 1 = 3 ∧
    closeFail 2 = 4 ∧
    drv_gem_bo_destroy closeFail boGem2 = 4 ∧
    (4 : Int) ≠ 3 := by
  decide

/-- Witness for C6 (amended): with an always-succeeding close exchange the
destroy returns 0. -/
theorem c6_witness : drv_gem_bo_destroy (fun _ => (0 : Int)) boGem2 = 0 :=
  (c6_gem_destroy_error (fun _ => (0 : Int)) boGem2).2 (by decide)

/-!
Dumb-buffer mapping length (`drv_dumb_bo_map`).
-/

/-- Model of the length computation of `drv_dumb_bo_map` (helpers.c lines
225-227), reached after the `DRM_IOCTL_MODE_MAP_DUMB` exchange succeeded
(on failure the function returns `MAP_FAILED` before this loop and
`data->length` is never touched): for every plane `i` of the buffer object
whose handle equals the mapped plane's handle, the plane's size is added
onto the caller-supplied `data->length`, whose incoming value `len0` is
never reset. -/
def drv_dumb_bo_map_length (bo : Bo) (plane len0 : Nat) : Nat :=
  (List.range bo.num_planes).foldl
    (fun len i =>
      if bo.handles i == bo.handles plane then len + bo.sizes i else len)
    len0

lemma foldl_filter_sum (p : Nat → Bool) (s : Nat → Nat) (l : List Nat)
    (a : Nat) :
    l.foldl (fun acc i => if p i then acc + s i else acc) a =
      a + ((l.filter p).map s).sum := by
  induction l generalizing a with
  | nil => simp
  | cons i rest ih =>
    rw [List.foldl_cons]
    by_cases hp : p i = true
    · rw [if_pos hp, ih, List.filter_cons, if_pos hp]
      simp only [List.map_cons, List.sum_cons]
      omega
    · have hpf : ¬ (p i = true) := hp
      rw [if_neg hpf, ih, List.filter_cons, if_neg hpf]

/-- C10 (implicit): `drv_dumb_bo_map` computes the mapping length by adding
each matching plane's size onto the value already stored in the
caller-supplied `map_info.length`, never resetting it: the final length is
the incoming length plus the sum of the sizes of the planes sharing the
mapped plane's handle, so the spec's sum-of-sizes result is obtained exactly
when the incoming length is 0. -/
theorem c10_map_length_accumulates (bo : Bo) (plane len0 : Nat) :
    drv_dumb_bo_map_length bo plane len0 =
      len0 + (((List.range bo.num_planes).filter
        (fun i => bo.handles i == bo.handles plane)).map bo.sizes).sum :=
  foldl_filter_sum _ _ _ _

/-- A concrete single-plane buffer object: handle 7, plane size 16. -/
def boMapOne : Bo :=
  { num_planes := 1, handles := fun _ => 7, strides := fun _ => 0,
    offsets := fun _ => 0, sizes := fun _ => 16, total_size := 0 }

/-- C5 counterexample: mapping plane 0 of a single-plane buffer object whose
only plane has size 16, with an incoming `map_info.length` of 5, yields
length 21 = 5 + 16, not the claimed sum of matching plane sizes 16: the
length field is accumulated onto, not set. -/
theorem c5_counterexample :
    boMapOne.sizes 0 = 16 ∧
    drv_dumb_bo_map_length boMapOne 0 5 = 21 ∧
    (21 : Nat) ≠ 16 := by
  decide

/-- A concrete two-plane buffer object whose planes share one handle and
have sizes `s1` and `s2`. -/
def mkBoShared (hh s1 s2 : Nat) : Bo :=
  { num_planes := 2, handles := fun _ => hh, strides := fun _ => 0,
    offsets := fun _ => 0, sizes := fun i => if i = 0 then s1 else s2,
    total_size := 0 }

/-- C5 (amended): when the caller passes a `map_info` whose incoming length
is 0, `drv_dumb_bo_map` produces a length equal to the sum of `size i` over
every plane `i` whose handle equals the mapped plane's handle; in
particular, mapping a plane whose handle is shared with another plane yields
the sum of both planes' sizes, not just the requested plane's size.  (With a
nonzero incoming length the sum is added onto it instead.) -/
theorem c5_map_length_shared :
    (∀ (bo : Bo) (plane : Nat),
      drv_dumb_bo_map_length bo plane 0 =
        (((List.range bo.num_planes).filter
          (fun i => bo.handles i == bo.handles plane)).map bo.sizes).sum) ∧
    (∀ hh s1 s2 : Nat,
      drv_dumb_bo_map_length (mkBoShared hh s1 s2) 0 0 = s1 + s2) := by
  constructor
  · intro bo plane
    exact (foldl_filter_sum _ _ _ _).trans (Nat.zero_add _)
  · intro hh s1 s2
    have h := foldl_filter_sum
      (fun i => (mkBoShared hh s1 s2).handles i ==
        (mkBoShared hh s1 s2).handles 0)
      (mkBoShared hh s1 s2).sizes (List.range 2) 0
    simp only [drv_dumb_bo_map_length, mkBoShared] at h ⊢
    rw [h]
    simp [List.range_succ]
